import Mathlib

/-!
Verification of the data-tag validation subsystem (`data_tags/tag_validator.py`).

The validator loads a JSON classification document at construction time and
answers read-only queries against it.  We embed the JSON value space, the
Python dictionary operations the source uses (`d[k]`, `d.get(k, default)`,
`d.items()`, truthiness, `>=` against an int), and each method of
`TagValidator`, with Python exceptions modelled by `Except PyExc`.
-/

/-- A JSON value as produced by `json.load`: Python dicts keep insertion
order, so objects are ordered association lists. -/
inductive Json where
  | null : Json
  | bool (b : Bool) : Json
  | num (n : Int) : Json
  | str (s : String) : Json
  | arr (elems : List Json) : Json
  | obj (entries : List (String × Json)) : Json

/-- Python exceptions that the validator's code paths can raise. -/
inductive PyExc where
  | fileNotFoundError : PyExc
  | jsonDecodeError : PyExc
  | attributeError : PyExc
  | keyError : PyExc
  | typeError : PyExc
deriving DecidableEq

/-- First-match lookup in an association list (Python dict lookup; `json.load`
never produces duplicate keys, so first match is the dict's value). -/
def lookupKV : List (String × Json) → String → Option Json
  | [], _ => none
  | (k, v) :: rest, key => if key = k then some v else lookupKV rest key

/-- Python `x.get(key, default)`: dict lookup with default; raises
`AttributeError` when the receiver is not a dict. -/
def pyGet (j : Json) (key : String) (default : Json) : Except PyExc Json :=
  match j with
  | .obj kvs => .ok ((lookupKV kvs key).getD default)
  | _ => .error .attributeError

/-- Python subscript `x[key]` with a string key: `KeyError` when the key is
absent from a dict, `TypeError` when the receiver is not a dict. -/
def pySubscript (j : Json) (key : String) : Except PyExc Json :=
  match j with
  | .obj kvs =>
    match lookupKV kvs key with
    | some v => .ok v
    | none => .error .keyError
  | _ => .error .typeError

/-- Python `x.items()`: the dict's entries in order; `AttributeError` when the
receiver is not a dict. -/
def pyItems (j : Json) : Except PyExc (List (String × Json)) :=
  match j with
  | .obj kvs => .ok kvs
  | _ => .error .attributeError

/-- Python truthiness of a JSON value (`if x:`). -/
def pyTruthy : Json → Bool
  | .null => false
  | .bool b => b
  | .num n => n != 0
  | .str s => s != ""
  | .arr elems => !elems.isEmpty
  | .obj entries => !entries.isEmpty

/-- Python `x >= m` for an int `m`: defined for ints and bools (bool is an
int subtype, True = 1, False = 0), `TypeError` otherwise. -/
def pyGEInt (j : Json) (m : Int) : Except PyExc Bool :=
  match j with
  | .num n => .ok (decide (m ≤ n))
  | .bool b => .ok (decide (m ≤ (if b then (1 : Int) else 0)))
  | _ => .error .typeError

/-- Python `key in data` for a dict-shaped candidate record. -/
def pyHasKey (data : List (String × Json)) (key : String) : Bool :=
  (lookupKV data key).isSome

/-- The outcome of resolving the schema source in `TagValidator.__init__`:
the file may be missing (`open` raises), its text may fail to parse
(`json.load` raises), or it parses to a JSON document. -/
inductive SchemaSource where
  | missing : SchemaSource
  | notJson : SchemaSource
  | content (doc : Json) : SchemaSource

/-- The body of `TagValidator.__init__`: `open` then `json.load`, storing the
parsed document unvalidated.  No shape check of any kind is performed. -/
def tagValidatorInit : SchemaSource → Except PyExc Json
  | .missing => .error .fileNotFoundError
  | .notJson => .error .jsonDecodeError
  | .content doc => .ok doc

/-- Embeds `TagValidator.get_service_schema`:
`return self.schema['services'].get(service_name, {})`. -/
def get_service_schema (schema : Json) (service_name : String) :
    Except PyExc Json := do
  let services ← pySubscript schema "services"
  pyGet services service_name (.obj [])

/-- Embeds `TagValidator.get_field_tags`:
`return service.get('fields', {}).get(field_name, {})`. -/
def get_field_tags (schema : Json) (service_name field_name : String) :
    Except PyExc Json := do
  let service ← get_service_schema schema service_name
  let fields ← pyGet service "fields" (.obj [])
  pyGet fields field_name (.obj [])

/-- The list comprehension in `validate_field_exists`:
`[n for n, info in fields.items() if info.get('required', False)]`,
evaluated left to right so the first raising entry propagates. -/
def requiredFieldsLoop : List (String × Json) → Except PyExc (List String)
  | [] => .ok []
  | (name, info) :: rest => do
    let r ← pyGet info "required" (.bool false)
    let tail ← requiredFieldsLoop rest
    if pyTruthy r then .ok (name :: tail) else .ok tail

/-- Embeds `TagValidator.validate_field_exists`: collect the required field
names, then keep those not present as keys of `data`. -/
def validate_field_exists (schema : Json) (service_name : String)
    (data : List (String × Json)) : Except PyExc (List String) := do
  let service ← get_service_schema schema service_name
  let fields ← pyGet service "fields" (.obj [])
  let items ← pyItems fields
  let required_fields ← requiredFieldsLoop items
  .ok (required_fields.filter (fun f => !pyHasKey data f))

/-- The loop in `get_sensitive_fields`: keep each field name whose
`info.get('piiLevel', 0) >= min_level`. -/
def sensitiveLoop (min_level : Int) :
    List (String × Json) → Except PyExc (List String)
  | [] => .ok []
  | (name, info) :: rest => do
    let lvl ← pyGet info "piiLevel" (.num 0)
    let b ← pyGEInt lvl min_level
    let tail ← sensitiveLoop min_level rest
    if b then .ok (name :: tail) else .ok tail

/-- Embeds `TagValidator.get_sensitive_fields`. -/
def get_sensitive_fields (schema : Json) (service_name : String)
    (min_level : Int) : Except PyExc (List String) := do
  let service ← get_service_schema schema service_name
  let fields ← pyGet service "fields" (.obj [])
  let items ← pyItems fields
  sensitiveLoop min_level items

/-- `get_sensitive_fields` with its Python default argument `min_level = 2`. -/
def get_sensitive_fields_default (schema : Json) (service_name : String) :
    Except PyExc (List String) :=
  get_sensitive_fields schema service_name 2

/-- Embeds `TagValidator.should_field_be_encrypted`:
`return tags.get('piiLevel', 0) >= 3`. -/
def should_field_be_encrypted (schema : Json) (service_name field_name : String) :
    Except PyExc Bool := do
  let tags ← get_field_tags schema service_name field_name
  let lvl ← pyGet tags "piiLevel" (.num 0)
  pyGEInt lvl 3

/-- Embeds `TagValidator.get_retention_policy`:
`return tags.get('retention', 'RETAIN_INDEFINITE')`. -/
def get_retention_policy (schema : Json) (service_name field_name : String) :
    Except PyExc Json := do
  let tags ← get_field_tags schema service_name field_name
  pyGet tags "retention" (.str "RETAIN_INDEFINITE")

/-!
Spec-side readers.  These follow the wording of the specification's data
model (a `services` mapping, per-service `fields` mapping, and per-field
classification records with defaults `piiLevel = 0`,
`retention = "RETAIN_INDEFINITE"`, `required = false`); the code's results
are compared against them.
-/

/-- Entries of the document's top-level `services` mapping. -/
def servicesOf (doc : Json) : List (String × Json) :=
  match doc with
  | .obj kvs =>
    match lookupKV kvs "services" with
    | some (.obj ss) => ss
    | _ => []
  | _ => []

/-- Entries of a service descriptor's `fields` mapping. -/
def fieldsOfService (service : Json) : List (String × Json) :=
  match service with
  | .obj kvs =>
    match lookupKV kvs "fields" with
    | some (.obj fs) => fs
    | _ => []
  | _ => []

/-- The field declarations of the named service, in declaration order;
empty for an unknown service. -/
def fieldsOf (doc : Json) (service_name : String) : List (String × Json) :=
  match lookupKV (servicesOf doc) service_name with
  | some service => fieldsOfService service
  | none => []

/-- The classification record of the named field; the empty record when the
service or the field is unknown. -/
def tagsOf (doc : Json) (service_name field_name : String) : Json :=
  (lookupKV (fieldsOf doc service_name) field_name).getD (.obj [])

/-- A field classification's `piiLevel`, defaulting to 0 when absent. -/
def piiLevelOf (info : Json) : Int :=
  match info with
  | .obj kvs =>
    match lookupKV kvs "piiLevel" with
    | some (.num n) => n
    | _ => 0
  | _ => 0

/-- Whether a field classification is marked `required = true`
(default false). -/
def requiredOf (info : Json) : Bool :=
  match info with
  | .obj kvs =>
    match lookupKV kvs "required" with
    | some (.bool b) => b
    | _ => false
  | _ => false

/-- A field classification's `retention`, defaulting to
`"RETAIN_INDEFINITE"` when absent. -/
def retentionOf (info : Json) : String :=
  match info with
  | .obj kvs =>
    match lookupKV kvs "retention" with
    | some (.str r) => r
    | _ => "RETAIN_INDEFINITE"
  | _ => "RETAIN_INDEFINITE"

/-- Keys of an association list are pairwise distinct — true of every dict
`json.load` produces. -/
def keysNodupB : List (String × Json) → Bool
  | [] => true
  | (k, _) :: rest => !(rest.any (fun kv => kv.1 == k)) && keysNodupB rest

/-- Well-formed field classification per the spec's data model: an object
whose `piiLevel` (when present) is a non-negative integer, whose `required`
(when present) is a boolean, and whose `retention` (when present) is a
string. -/
def wfFieldInfo : Json → Bool
  | .obj kvs =>
    (match lookupKV kvs "piiLevel" with
     | some (.num n) => decide (0 ≤ n)
     | some _ => false
     | none => true) &&
    (match lookupKV kvs "required" with
     | some (.bool _) => true
     | some _ => false
     | none => true) &&
    (match lookupKV kvs "retention" with
     | some (.str _) => true
     | some _ => false
     | none => true)
  | _ => false

/-- Well-formed service descriptor: an object whose `fields` entry (when
present) is an object of well-formed field classifications with distinct
keys. -/
def wfService : Json → Bool
  | .obj kvs =>
    match lookupKV kvs "fields" with
    | some (.obj fs) => keysNodupB fs && fs.all (fun kv => wfFieldInfo kv.2)
    | some _ => false
    | none => true
  | _ => false

/-- Well-formed classification document: an object with a `services` entry
mapping to an object of well-formed service descriptors with distinct keys. -/
def wfSchema : Json → Bool
  | .obj kvs =>
    match lookupKV kvs "services" with
    | some (.obj ss) => keysNodupB ss && ss.all (fun kv => wfService kv.2)
    | _ => false
  | _ => false

/-- The concrete scenario document of the specification:
`{"services": {"userinfo": {"fields": {"userPassword": {...}, "city": {...}}}}`. -/
def demoDoc : Json :=
  .obj [("services", .obj [("userinfo", .obj [("fields", .obj
    [("userPassword", .obj [("piiLevel", .num 4),
        ("retention", .str "RETAIN_7_YEARS"), ("required", .bool true)]),
     ("city", .obj [("piiLevel", .num 1), ("required", .bool false)])])])])]

/-- A parseable document whose `services` entry is not a mapping. -/
def notAnObjectDoc : Json :=
  .obj [("services", .str "not-an-object")]

/-- Bind on `Except` consumes a success. -/
lemma exc_bind_ok {α β : Type} (a : α) (f : α → Except PyExc β) :
    (Except.ok a >>= f) = f a := rfl

/-- Bind on `Except` propagates an error. -/
lemma exc_bind_err {α β : Type} (e : PyExc) (f : α → Except PyExc β) :
    ((Except.error e : Except PyExc α) >>= f) = .error e := rfl

/-- A successful lookup finds an entry of the list. -/
lemma lookupKV_mem : ∀ {l : List (String × Json)} {k : String} {v : Json},
    lookupKV l k = some v → (k, v) ∈ l := by
  intro l
  induction l with
  | nil => intro k v h; simp [lookupKV] at h
  | cons kv rest ih =>
    intro k v h
    obtain ⟨k', v'⟩ := kv
    simp only [lookupKV] at h
    split at h
    · next heq =>
      injection h with h2
      subst heq; subst h2
      exact List.mem_cons_self _ _
    · exact List.mem_cons_of_mem _ (ih h)

/-- With pairwise-distinct keys, membership determines the lookup result. -/
lemma lookupKV_of_mem_nodup : ∀ {l : List (String × Json)} {k : String} {v : Json},
    keysNodupB l = true → (k, v) ∈ l → lookupKV l k = some v := by
  intro l
  induction l with
  | nil => intro k v _ h; simp at h
  | cons kv rest ih =>
    intro k v hnd hmem
    obtain ⟨k', v'⟩ := kv
    simp only [keysNodupB, Bool.and_eq_true, Bool.not_eq_true'] at hnd
    obtain ⟨hany, hnd'⟩ := hnd
    rcases List.mem_cons.mp hmem with heq | hmem'
    · injection heq with h1 h2
      subst h1; subst h2
      simp [lookupKV]
    · by_cases hk : k = k'
      · subst hk
        have hm : rest.any (fun kv => kv.1 == k) = true :=
          List.any_eq_true.mpr ⟨(k, v), hmem', by simp⟩
        simp [hm] at hany
      · simp only [lookupKV, if_neg hk]
        exact ih hnd' hmem'

/-- Eliminating `wfSchema`: the subscript of `services` succeeds with the
services mapping, whose keys are distinct and whose descriptors are
well-formed. -/
lemma wfSchema_services (doc : Json) (h : wfSchema doc = true) :
    pySubscript doc "services" = .ok (.obj (servicesOf doc)) ∧
    keysNodupB (servicesOf doc) = true ∧
    ∀ kv ∈ servicesOf doc, wfService kv.2 = true := by
  cases doc
  case obj kvs =>
    simp only [wfSchema] at h
    cases hlk : lookupKV kvs "services" with
    | none => rw [hlk] at h; simp at h
    | some v =>
      cases v
      case obj ss =>
        rw [hlk] at h
        simp only [Bool.and_eq_true, List.all_eq_true] at h
        refine ⟨by simp [pySubscript, hlk, servicesOf], ?_, ?_⟩
        · simpa [servicesOf, hlk] using h.1
        · intro kv hkv
          have := h.2 kv (by simpa [servicesOf, hlk] using hkv)
          simpa using this
      all_goals (rw [hlk] at h; simp at h)
  all_goals simp [wfSchema] at h

/-- Under a well-formed schema, `get_service_schema` returns the looked-up
descriptor, defaulting to the empty one. -/
lemma get_service_schema_wf (doc : Json) (h : wfSchema doc = true) (s : String) :
    get_service_schema doc s = .ok ((lookupKV (servicesOf doc) s).getD (.obj [])) := by
  obtain ⟨hsub, -, -⟩ := wfSchema_services doc h
  simp [get_service_schema, hsub, exc_bind_ok, pyGet]

/-- The descriptor `get_service_schema` resolves to is well-formed. -/
lemma wfService_getD (doc : Json) (h : wfSchema doc = true) (s : String) :
    wfService ((lookupKV (servicesOf doc) s).getD (.obj [])) = true := by
  obtain ⟨-, -, hall⟩ := wfSchema_services doc h
  cases hlk : lookupKV (servicesOf doc) s with
  | none => rfl
  | some svc => simpa using hall (s, svc) (lookupKV_mem hlk)

/-- The reader `fieldsOf` agrees with reading the fields of the resolved
descriptor. -/
lemma fieldsOf_eq (doc : Json) (s : String) :
    fieldsOf doc s = fieldsOfService ((lookupKV (servicesOf doc) s).getD (.obj [])) := by
  unfold fieldsOf
  cases lookupKV (servicesOf doc) s <;> rfl

/-- Eliminating `wfService`: `service.get('fields', {})` succeeds with the
fields mapping, whose keys are distinct and whose records are well-formed. -/
lemma pyGet_fields_wf (svc : Json) (h : wfService svc = true) :
    pyGet svc "fields" (.obj []) = .ok (.obj (fieldsOfService svc)) ∧
    keysNodupB (fieldsOfService svc) = true ∧
    ∀ kv ∈ fieldsOfService svc, wfFieldInfo kv.2 = true := by
  cases svc
  case obj kvs =>
    simp only [wfService] at h
    cases hlk : lookupKV kvs "fields" with
    | none =>
      refine ⟨?_, ?_, ?_⟩ <;> simp [pyGet, fieldsOfService, hlk, keysNodupB]
    | some v =>
      cases v
      case obj fs =>
        rw [hlk] at h
        simp only [Bool.and_eq_true, List.all_eq_true] at h
        refine ⟨by simp [pyGet, hlk, fieldsOfService], ?_, ?_⟩
        · simpa [fieldsOfService, hlk] using h.1
        · intro kv hkv
          have := h.2 kv (by simpa [fieldsOfService, hlk] using hkv)
          simpa using this
      all_goals (rw [hlk] at h; simp at h)
  all_goals simp [wfService] at h

/-- Under a well-formed record, reading `piiLevel` with default 0 succeeds
with `piiLevelOf`. -/
lemma pyGet_piiLevel_wf (info : Json) (h : wfFieldInfo info = true) :
    pyGet info "piiLevel" (.num 0) = .ok (.num (piiLevelOf info)) := by
  cases info
  case obj kvs =>
    simp only [wfFieldInfo, Bool.and_eq_true] at h
    obtain ⟨⟨h1, -⟩, -⟩ := h
    cases hlk : lookupKV kvs "piiLevel" with
    | none => simp [pyGet, hlk, piiLevelOf]
    | some v =>
      cases v
      case num n => simp [pyGet, hlk, piiLevelOf]
      all_goals (rw [hlk] at h1; simp at h1)
  all_goals simp [wfFieldInfo] at h

/-- Well-formed records carry a non-negative level (the spec's invariant). -/
lemma piiLevelOf_nonneg (info : Json) (h : wfFieldInfo info = true) :
    0 ≤ piiLevelOf info := by
  cases info
  case obj kvs =>
    simp only [wfFieldInfo, Bool.and_eq_true] at h
    obtain ⟨⟨h1, -⟩, -⟩ := h
    cases hlk : lookupKV kvs "piiLevel" with
    | none => simp [piiLevelOf, hlk]
    | some v =>
      cases v
      case num n =>
        rw [hlk] at h1
        simp only [decide_eq_true_eq] at h1
        simpa [piiLevelOf, hlk] using h1
      all_goals (rw [hlk] at h1; simp at h1)
  all_goals simp [wfFieldInfo] at h

/-- Under a well-formed record, the truthiness test of
`info.get('required', False)` computes `requiredOf`. -/
lemma pyTruthy_required_wf (info : Json) (h : wfFieldInfo info = true) :
    ∃ r, pyGet info "required" (.bool false) = .ok r ∧ pyTruthy r = requiredOf info := by
  cases info
  case obj kvs =>
    simp only [wfFieldInfo, Bool.and_eq_true] at h
    obtain ⟨⟨-, h2⟩, -⟩ := h
    cases hlk : lookupKV kvs "required" with
    | none =>
      exact ⟨.bool false, by simp [pyGet, hlk], by simp [pyTruthy, requiredOf, hlk]⟩
    | some v =>
      cases v
      case bool b =>
        exact ⟨.bool b, by simp [pyGet, hlk], by simp [pyTruthy, requiredOf, hlk]⟩
      all_goals (rw [hlk] at h2; simp at h2)
  all_goals simp [wfFieldInfo] at h

/-- Under a well-formed record, reading `retention` with its default
computes `retentionOf`. -/
lemma pyGet_retention_wf (info : Json) (h : wfFieldInfo info = true) :
    pyGet info "retention" (.str "RETAIN_INDEFINITE") = .ok (.str (retentionOf info)) := by
  cases info
  case obj kvs =>
    simp only [wfFieldInfo, Bool.and_eq_true] at h
    obtain ⟨-, h3⟩ := h
    cases hlk : lookupKV kvs "retention" with
    | none => simp [pyGet, hlk, retentionOf]
    | some v =>
      cases v
      case str r => simp [pyGet, hlk, retentionOf]
      all_goals (rw [hlk] at h3; simp at h3)
  all_goals simp [wfFieldInfo] at h

/-- The required-fields comprehension keeps exactly the names of records
marked required, in order. -/
lemma requiredFieldsLoop_wf : ∀ (items : List (String × Json)),
    (∀ kv ∈ items, wfFieldInfo kv.2 = true) →
    requiredFieldsLoop items =
      .ok ((items.filter (fun kv => requiredOf kv.2)).map Prod.fst) := by
  intro items
  induction items with
  | nil => intro _; rfl
  | cons kv rest ih =>
    intro hall
    obtain ⟨name, info⟩ := kv
    obtain ⟨r, hget, htr⟩ :=
      pyTruthy_required_wf info (hall _ (List.mem_cons_self _ _))
    have hrest := ih (fun x hx => hall x (List.mem_cons_of_mem _ hx))
    simp only [requiredFieldsLoop, hget, exc_bind_ok, hrest, htr]
    by_cases hb : requiredOf info = true
    · simp [hb, List.filter_cons]
    · simp only [Bool.not_eq_true] at hb
      simp [hb, List.filter_cons]

/-- The sensitivity loop keeps exactly the names of records whose level
clears the threshold, in order. -/
lemma sensitiveLoop_wf : ∀ (m : Int) (items : List (String × Json)),
    (∀ kv ∈ items, wfFieldInfo kv.2 = true) →
    sensitiveLoop m items =
      .ok ((items.filter (fun kv => decide (m ≤ piiLevelOf kv.2))).map Prod.fst) := by
  intro m items
  induction items with
  | nil => intro _; rfl
  | cons kv rest ih =>
    intro hall
    obtain ⟨name, info⟩ := kv
    have hget := pyGet_piiLevel_wf info (hall _ (List.mem_cons_self _ _))
    have hrest := ih (fun x hx => hall x (List.mem_cons_of_mem _ hx))
    simp only [sensitiveLoop, hget, exc_bind_ok, pyGEInt, hrest]
    by_cases hb : m ≤ piiLevelOf info
    · simp [hb, List.filter_cons]
    · simp [hb, List.filter_cons]

/-- Characterization of `validate_field_exists` on well-formed documents:
the required field names in declaration order, restricted to keys absent
from the candidate record. -/
lemma validate_field_exists_wf (doc : Json) (h : wfSchema doc = true)
    (s : String) (data : List (String × Json)) :
    validate_field_exists doc s data =
      .ok ((((fieldsOf doc s).filter (fun kv => requiredOf kv.2)).map Prod.fst).filter
        (fun f => !pyHasKey data f)) := by
  have hsvc := get_service_schema_wf doc h s
  have hwfsvc := wfService_getD doc h s
  obtain ⟨hflds, -, hall⟩ := pyGet_fields_wf _ hwfsvc
  rw [← fieldsOf_eq] at hflds hall
  have hloop := requiredFieldsLoop_wf (fieldsOf doc s) hall
  simp only [validate_field_exists, hsvc, exc_bind_ok, hflds, pyItems, hloop]

/-- Characterization of `get_sensitive_fields` on well-formed documents:
the names of fields at or above the threshold, in declaration order. -/
lemma get_sensitive_fields_wf (doc : Json) (h : wfSchema doc = true)
    (s : String) (m : Int) :
    get_sensitive_fields doc s m =
      .ok (((fieldsOf doc s).filter (fun kv => decide (m ≤ piiLevelOf kv.2))).map Prod.fst) := by
  have hsvc := get_service_schema_wf doc h s
  have hwfsvc := wfService_getD doc h s
  obtain ⟨hflds, -, hall⟩ := pyGet_fields_wf _ hwfsvc
  rw [← fieldsOf_eq] at hflds hall
  have hloop := sensitiveLoop_wf m (fieldsOf doc s) hall
  simp only [get_sensitive_fields, hsvc, exc_bind_ok, hflds, pyItems, hloop]

/-- Characterization of `get_field_tags` on well-formed documents. -/
lemma get_field_tags_wf (doc : Json) (h : wfSchema doc = true) (s f : String) :
    get_field_tags doc s f = .ok (tagsOf doc s f) := by
  have hsvc := get_service_schema_wf doc h s
  have hwfsvc := wfService_getD doc h s
  obtain ⟨hflds, -, -⟩ := pyGet_fields_wf _ hwfsvc
  rw [← fieldsOf_eq] at hflds
  simp only [get_field_tags, hsvc, exc_bind_ok, hflds]
  simp [pyGet, tagsOf]

/-- The record `get_field_tags` resolves to is well-formed. -/
lemma tagsOf_wf (doc : Json) (h : wfSchema doc = true) (s f : String) :
    wfFieldInfo (tagsOf doc s f) = true := by
  have hwfsvc := wfService_getD doc h s
  obtain ⟨-, -, hall⟩ := pyGet_fields_wf _ hwfsvc
  rw [← fieldsOf_eq] at hall
  unfold tagsOf
  cases hlk : lookupKV (fieldsOf doc s) f with
  | none => decide
  | some v => simpa using hall (f, v) (lookupKV_mem hlk)

/-- Characterization of `should_field_be_encrypted` on well-formed
documents: the level-3 test on the resolved record. -/
lemma should_field_be_encrypted_wf (doc : Json) (h : wfSchema doc = true)
    (s f : String) :
    should_field_be_encrypted doc s f =
      .ok (decide ((3 : Int) ≤ piiLevelOf (tagsOf doc s f))) := by
  have htags := get_field_tags_wf doc h s f
  have hlvl := pyGet_piiLevel_wf _ (tagsOf_wf doc h s f)
  simp only [should_field_be_encrypted, htags, exc_bind_ok, hlvl, pyGEInt]

/-- Characterization of `get_retention_policy` on well-formed documents. -/
lemma get_retention_policy_wf (doc : Json) (h : wfSchema doc = true)
    (s f : String) :
    get_retention_policy doc s f = .ok (.str (retentionOf (tagsOf doc s f))) := by
  have htags := get_field_tags_wf doc h s f
  have hret := pyGet_retention_wf _ (tagsOf_wf doc h s f)
  simp only [get_retention_policy, htags, exc_bind_ok, hret]

/-- An unknown service has no field declarations. -/
lemma fieldsOf_unknown (doc : Json) (s : String)
    (h : lookupKV (servicesOf doc) s = none) : fieldsOf doc s = [] := by
  simp [fieldsOf, h]

/-- The resolved record of an unknown field (or service) is the empty
record. -/
lemma tagsOf_unknown (doc : Json) (s f : String)
    (h : lookupKV (fieldsOf doc s) f = none) : tagsOf doc s f = .obj [] := by
  simp [tagsOf, h]

/-- Membership in the name projection of a filtered field list. -/
lemma mem_filter_map_fst {l : List (String × Json)} {p : String × Json → Bool}
    {a : String} :
    a ∈ (l.filter p).map Prod.fst ↔ ∃ v, (a, v) ∈ l ∧ p (a, v) = true := by
  constructor
  · intro ha
    obtain ⟨kv, hkv, hfst⟩ := List.mem_map.mp ha
    obtain ⟨hm, hp⟩ := List.mem_filter.mp hkv
    obtain ⟨k, v⟩ := kv
    cases hfst
    exact ⟨v, hm, hp⟩
  · rintro ⟨v, hm, hp⟩
    exact List.mem_map.mpr ⟨(a, v), List.mem_filter.mpr ⟨hm, hp⟩, rfl⟩

/-- Field names of a well-formed document's service are pairwise distinct. -/
lemma fieldsOf_nodup (doc : Json) (h : wfSchema doc = true) (s : String) :
    keysNodupB (fieldsOf doc s) = true := by
  obtain ⟨-, hnd, -⟩ := pyGet_fields_wf _ (wfService_getD doc h s)
  rwa [← fieldsOf_eq] at hnd

/-- Field records of a well-formed document's service are well-formed. -/
lemma fieldsOf_all_wf (doc : Json) (h : wfSchema doc = true) (s : String) :
    ∀ kv ∈ fieldsOf doc s, wfFieldInfo kv.2 = true := by
  obtain ⟨-, -, hall⟩ := pyGet_fields_wf _ (wfService_getD doc h s)
  rwa [← fieldsOf_eq] at hall

example : wfSchema demoDoc = true := by decide
example : get_sensitive_fields demoDoc "userinfo" 2 = .ok ["userPassword"] := rfl
example : validate_field_exists demoDoc "userinfo" [("city", .str "Boston")]
    = .ok ["userPassword"] := rfl
example : get_service_schema notAnObjectDoc "userinfo"
    = .error .attributeError := rfl

/-- C1: on a well-formed document, `validate_field_exists` returns exactly
the field names of the service's descriptor marked `required = true` that
are absent as keys of the candidate record, in the schema's field
declaration order, and the result is empty iff every required field is
present as a key. -/
theorem C1_validate_field_exists_spec (doc : Json) (h : wfSchema doc = true)
    (s : String) (data : List (String × Json)) :
    validate_field_exists doc s data =
      .ok ((((fieldsOf doc s).filter (fun kv => requiredOf kv.2)).map Prod.fst).filter
        (fun f => !pyHasKey data f)) ∧
    (validate_field_exists doc s data = .ok [] ↔
      ∀ kv ∈ fieldsOf doc s, requiredOf kv.2 = true → pyHasKey data kv.1 = true) := by
  have hmain := validate_field_exists_wf doc h s data
  refine ⟨hmain, ?_⟩
  rw [hmain, Except.ok.injEq]
  constructor
  · intro heq kv hkv hreq
    by_contra hnk
    have h1 : kv ∈ (fieldsOf doc s).filter (fun kv => requiredOf kv.2) :=
      List.mem_filter.mpr ⟨hkv, hreq⟩
    have h2 : kv.1 ∈ ((fieldsOf doc s).filter (fun kv => requiredOf kv.2)).map Prod.fst :=
      List.mem_map_of_mem _ h1
    have h3 : kv.1 ∈ (((fieldsOf doc s).filter (fun kv => requiredOf kv.2)).map Prod.fst).filter
        (fun f => !pyHasKey data f) := by
      refine List.mem_filter.mpr ⟨h2, ?_⟩
      rw [Bool.not_eq_true] at hnk
      simp [hnk]
    rw [heq] at h3
    simp at h3
  · intro hall
    apply List.filter_eq_nil_iff.mpr
    intro a ha
    obtain ⟨kv, hkv, rfl⟩ := List.mem_map.mp ha
    obtain ⟨hmem, hreq⟩ := List.mem_filter.mp hkv
    have hk := hall kv hmem hreq
    simp [hk]

/-- Witness for C1 at the specification's concrete scenario. -/
theorem C1_witness :
    wfSchema demoDoc = true ∧
    (validate_field_exists demoDoc "userinfo" [("city", Json.str "Boston")] =
      .ok ((((fieldsOf demoDoc "userinfo").filter (fun kv => requiredOf kv.2)).map Prod.fst).filter
        (fun f => !pyHasKey [("city", Json.str "Boston")] f)) ∧
    (validate_field_exists demoDoc "userinfo" [("city", Json.str "Boston")] = .ok [] ↔
      ∀ kv ∈ fieldsOf demoDoc "userinfo", requiredOf kv.2 = true →
        pyHasKey [("city", Json.str "Boston")] kv.1 = true)) :=
  ⟨rfl, C1_validate_field_exists_spec demoDoc rfl "userinfo" [("city", Json.str "Boston")]⟩

/-- C2: on a well-formed document, `get_sensitive_fields` returns exactly
the field names whose `piiLevel` (default 0) is at least `min_level`, an
inclusive bound, in declaration order, and the omitted threshold defaults
to 2. -/
theorem C2_get_sensitive_fields_spec (doc : Json) (h : wfSchema doc = true)
    (s : String) (m : Int) :
    get_sensitive_fields doc s m =
      .ok (((fieldsOf doc s).filter (fun kv => decide (m ≤ piiLevelOf kv.2))).map Prod.fst) ∧
    get_sensitive_fields_default doc s = get_sensitive_fields doc s 2 :=
  ⟨get_sensitive_fields_wf doc h s m, rfl⟩

/-- Witness for C2 at the specification's concrete scenario. -/
theorem C2_witness :
    wfSchema demoDoc = true ∧
    (get_sensitive_fields demoDoc "userinfo" 2 =
      .ok (((fieldsOf demoDoc "userinfo").filter
        (fun kv => decide ((2 : Int) ≤ piiLevelOf kv.2))).map Prod.fst) ∧
    get_sensitive_fields_default demoDoc "userinfo" =
      get_sensitive_fields demoDoc "userinfo" 2) :=
  ⟨rfl, C2_get_sensitive_fields_spec demoDoc rfl "userinfo" 2⟩

/-- C3: on a well-formed document, `should_field_be_encrypted` is true iff
the record `get_field_tags` returns has `piiLevel ≥ 3`, and it is false for
any unknown service or unknown field. -/
theorem C3_should_field_be_encrypted_spec (doc : Json) (h : wfSchema doc = true)
    (s f : String) :
    (should_field_be_encrypted doc s f = .ok true ↔
      (3 : Int) ≤ piiLevelOf (tagsOf doc s f)) ∧
    get_field_tags doc s f = .ok (tagsOf doc s f) ∧
    ((lookupKV (servicesOf doc) s = none ∨ lookupKV (fieldsOf doc s) f = none) →
      should_field_be_encrypted doc s f = .ok false) := by
  refine ⟨?_, get_field_tags_wf doc h s f, ?_⟩
  · rw [should_field_be_encrypted_wf doc h s f]
    simp
  · intro hcase
    have htags : tagsOf doc s f = .obj [] := by
      rcases hcase with hs | hf
      · apply tagsOf_unknown
        rw [fieldsOf_unknown doc s hs]
        rfl
      · exact tagsOf_unknown doc s f hf
    rw [should_field_be_encrypted_wf doc h s f, htags]
    rfl

/-- Witness for C3 at the specification's concrete scenario. -/
theorem C3_witness :
    wfSchema demoDoc = true ∧
    ((should_field_be_encrypted demoDoc "userinfo" "userPassword" = .ok true ↔
      (3 : Int) ≤ piiLevelOf (tagsOf demoDoc "userinfo" "userPassword")) ∧
    get_field_tags demoDoc "userinfo" "userPassword" =
      .ok (tagsOf demoDoc "userinfo" "userPassword") ∧
    ((lookupKV (servicesOf demoDoc) "userinfo" = none ∨
        lookupKV (fieldsOf demoDoc "userinfo") "userPassword" = none) →
      should_field_be_encrypted demoDoc "userinfo" "userPassword" = .ok false)) :=
  ⟨rfl, C3_should_field_be_encrypted_spec demoDoc rfl "userinfo" "userPassword"⟩

/-- C4 counterexample: constructing the validator over the parseable
document whose `services` entry is not a mapping raises nothing — the
construction succeeds and the validator holds the malformed document, so no
`SchemaParseError` (a type absent from the code) is signalled. -/
theorem C4_counterexample :
    tagValidatorInit (SchemaSource.content notAnObjectDoc) = .ok notAnObjectDoc := rfl

/-- C4 as amended: a nonexistent source fails construction with the
built-in file-not-found error and unparseable text with the JSON decode
error, but the malformed `services` document is accepted unvalidated and
only a later query fails. -/
theorem C4_amended_init_behavior :
    tagValidatorInit SchemaSource.missing = .error PyExc.fileNotFoundError ∧
    tagValidatorInit SchemaSource.notJson = .error PyExc.jsonDecodeError ∧
    tagValidatorInit (SchemaSource.content notAnObjectDoc) = .ok notAnObjectDoc ∧
    get_retention_policy notAnObjectDoc "userinfo" "email" =
      .error PyExc.attributeError :=
  ⟨rfl, rfl, rfl, rfl⟩

/-- C5 counterexample: a validator successfully constructed over the
malformed `services` document raises `AttributeError` on a plain query, so
queries after successful construction are not total. -/
theorem C5_counterexample :
    tagValidatorInit (SchemaSource.content notAnObjectDoc) = .ok notAnObjectDoc ∧
    get_service_schema notAnObjectDoc "orders" = .error PyExc.attributeError :=
  ⟨rfl, rfl⟩

/-- C5 as amended: over a well-formed document, all six query operations
are total — every combination of service name, field name, threshold and
candidate record yields a successful result. -/
theorem C5_amended_queries_total (doc : Json) (h : wfSchema doc = true)
    (s f : String) (m : Int) (data : List (String × Json)) :
    (∃ v, get_service_schema doc s = .ok v) ∧
    (∃ v, get_field_tags doc s f = .ok v) ∧
    (∃ v, validate_field_exists doc s data = .ok v) ∧
    (∃ v, get_sensitive_fields doc s m = .ok v) ∧
    (∃ v, should_field_be_encrypted doc s f = .ok v) ∧
    (∃ v, get_retention_policy doc s f = .ok v) :=
  ⟨⟨_, get_service_schema_wf doc h s⟩,
   ⟨_, get_field_tags_wf doc h s f⟩,
   ⟨_, validate_field_exists_wf doc h s data⟩,
   ⟨_, get_sensitive_fields_wf doc h s m⟩,
   ⟨_, should_field_be_encrypted_wf doc h s f⟩,
   ⟨_, get_retention_policy_wf doc h s f⟩⟩

/-- Witness for the amended C5 at the specification's concrete scenario. -/
theorem C5_witness :
    wfSchema demoDoc = true ∧
    ((∃ v, get_service_schema demoDoc "userinfo" = .ok v) ∧
    (∃ v, get_field_tags demoDoc "userinfo" "city" = .ok v) ∧
    (∃ v, validate_field_exists demoDoc "userinfo" [("city", Json.str "Boston")] = .ok v) ∧
    (∃ v, get_sensitive_fields demoDoc "userinfo" 2 = .ok v) ∧
    (∃ v, should_field_be_encrypted demoDoc "userinfo" "city" = .ok v) ∧
    (∃ v, get_retention_policy demoDoc "userinfo" "city" = .ok v)) :=
  ⟨rfl, C5_amended_queries_total demoDoc rfl "userinfo" "city" 2
    [("city", Json.str "Boston")]⟩

/-- C6: threshold monotonicity — on a well-formed document, lowering the
threshold can only enlarge the set of sensitive field names. -/
theorem C6_get_sensitive_fields_monotone (doc : Json) (h : wfSchema doc = true)
    (s : String) (m1 m2 : Int) (hm : m1 ≤ m2) (l1 l2 : List String)
    (h1 : get_sensitive_fields doc s m1 = .ok l1)
    (h2 : get_sensitive_fields doc s m2 = .ok l2) :
    ∀ x ∈ l2, x ∈ l1 := by
  rw [get_sensitive_fields_wf doc h s m1, Except.ok.injEq] at h1
  rw [get_sensitive_fields_wf doc h s m2, Except.ok.injEq] at h2
  subst h1
  subst h2
  intro x hx
  rw [mem_filter_map_fst] at hx ⊢
  obtain ⟨v, hmem, hp⟩ := hx
  refine ⟨v, hmem, ?_⟩
  simp only [decide_eq_true_eq] at hp ⊢
  omega

/-- Witness for C6: thresholds 1 and 2 on the concrete scenario. -/
theorem C6_witness :
    wfSchema demoDoc = true ∧ (1 : Int) ≤ 2 ∧
    get_sensitive_fields demoDoc "userinfo" 1 = .ok ["userPassword", "city"] ∧
    get_sensitive_fields demoDoc "userinfo" 2 = .ok ["userPassword"] ∧
    ∀ x ∈ ["userPassword"], x ∈ ["userPassword", "city"] :=
  ⟨rfl, by decide, rfl, rfl,
    C6_get_sensitive_fields_monotone demoDoc rfl "userinfo" 1 2 (by decide)
      ["userPassword", "city"] ["userPassword"] rfl rfl⟩

/-- C7: default consistency — on a well-formed document, an unknown service
yields the empty descriptor from `get_service_schema`, the empty record
from `get_field_tags` for every field, and that record reads as the
all-defaults classification. -/
theorem C7_unknown_service_defaults (doc : Json) (h : wfSchema doc = true)
    (s : String) (hs : lookupKV (servicesOf doc) s = none) (f : String) :
    get_service_schema doc s = .ok (.obj []) ∧
    get_field_tags doc s f = .ok (.obj []) ∧
    piiLevelOf (.obj []) = 0 ∧
    retentionOf (.obj []) = "RETAIN_INDEFINITE" ∧
    requiredOf (.obj []) = false := by
  refine ⟨?_, ?_, rfl, rfl, rfl⟩
  · rw [get_service_schema_wf doc h s, hs]
    rfl
  · rw [get_field_tags_wf doc h s f,
      tagsOf_unknown doc s f (by rw [fieldsOf_unknown doc s hs]; rfl)]

/-- Witness for C7 at a service absent from the concrete scenario. -/
theorem C7_witness :
    wfSchema demoDoc = true ∧
    lookupKV (servicesOf demoDoc) "payments" = none ∧
    (get_service_schema demoDoc "payments" = .ok (.obj []) ∧
    get_field_tags demoDoc "payments" "cardNumber" = .ok (.obj []) ∧
    piiLevelOf (.obj []) = 0 ∧
    retentionOf (.obj []) = "RETAIN_INDEFINITE" ∧
    requiredOf (.obj []) = false) :=
  ⟨rfl, rfl, C7_unknown_service_defaults demoDoc rfl "payments" rfl "cardNumber"⟩

/-- C8: on a well-formed document, `get_retention_policy` returns the
field's `retention` string via the `retentionOf` reader (the declared value
when specified, `"RETAIN_INDEFINITE"` when unspecified), and exactly
`"RETAIN_INDEFINITE"` when the service or field is unknown. -/
theorem C8_get_retention_policy_spec (doc : Json) (h : wfSchema doc = true)
    (s f : String) :
    get_retention_policy doc s f = .ok (.str (retentionOf (tagsOf doc s f))) ∧
    ((lookupKV (servicesOf doc) s = none ∨ lookupKV (fieldsOf doc s) f = none) →
      get_retention_policy doc s f = .ok (.str "RETAIN_INDEFINITE")) := by
  refine ⟨get_retention_policy_wf doc h s f, ?_⟩
  intro hcase
  have htags : tagsOf doc s f = .obj [] := by
    rcases hcase with hs | hf
    · apply tagsOf_unknown
      rw [fieldsOf_unknown doc s hs]
      rfl
    · exact tagsOf_unknown doc s f hf
  rw [get_retention_policy_wf doc h s f, htags]
  rfl

/-- Witness for C8 at the specification's concrete scenario
(`city` declares no retention, so the default applies). -/
theorem C8_witness :
    wfSchema demoDoc = true ∧
    (get_retention_policy demoDoc "userinfo" "city" =
      .ok (.str (retentionOf (tagsOf demoDoc "userinfo" "city"))) ∧
    ((lookupKV (servicesOf demoDoc) "userinfo" = none ∨
        lookupKV (fieldsOf demoDoc "userinfo") "city" = none) →
      get_retention_policy demoDoc "userinfo" "city" =
        .ok (.str "RETAIN_INDEFINITE"))) :=
  ⟨rfl, C8_get_retention_policy_spec demoDoc rfl "userinfo" "city"⟩

/-- C9: on a well-formed document, a field name is in
`get_sensitive_fields` at threshold 3 iff it is declared in the service's
field mapping and `should_field_be_encrypted` returns true for it. -/
theorem C9_sensitive_three_iff_encrypted (doc : Json) (h : wfSchema doc = true)
    (s f : String) (l3 : List String)
    (h3 : get_sensitive_fields doc s 3 = .ok l3) :
    f ∈ l3 ↔ ((lookupKV (fieldsOf doc s) f).isSome ∧
      should_field_be_encrypted doc s f = .ok true) := by
  rw [get_sensitive_fields_wf doc h s 3, Except.ok.injEq] at h3
  subst h3
  rw [mem_filter_map_fst]
  constructor
  · rintro ⟨v, hmem, hp⟩
    have hlk : lookupKV (fieldsOf doc s) f = some v :=
      lookupKV_of_mem_nodup (fieldsOf_nodup doc h s) hmem
    have htags : tagsOf doc s f = v := by simp [tagsOf, hlk]
    refine ⟨by simp [hlk], ?_⟩
    rw [should_field_be_encrypted_wf doc h s f, htags]
    simpa using hp
  · rintro ⟨hsome, henc⟩
    obtain ⟨v, hlk⟩ := Option.isSome_iff_exists.mp hsome
    have htags : tagsOf doc s f = v := by simp [tagsOf, hlk]
    rw [should_field_be_encrypted_wf doc h s f, htags, Except.ok.injEq] at henc
    exact ⟨v, lookupKV_mem hlk, by simpa using henc⟩

/-- Witness for C9 at the specification's concrete scenario. -/
theorem C9_witness :
    wfSchema demoDoc = true ∧
    get_sensitive_fields demoDoc "userinfo" 3 = .ok ["userPassword"] ∧
    ("userPassword" ∈ ["userPassword"] ↔
      ((lookupKV (fieldsOf demoDoc "userinfo") "userPassword").isSome ∧
        should_field_be_encrypted demoDoc "userinfo" "userPassword" = .ok true)) :=
  ⟨rfl, rfl, C9_sensitive_three_iff_encrypted demoDoc rfl "userinfo" "userPassword"
    ["userPassword"] rfl⟩

/-- C10: on a well-formed document, any threshold at most 0 selects every
declared field of the service, in declaration order, since levels default
to 0 and are non-negative. -/
theorem C10_nonpositive_threshold_selects_all (doc : Json)
    (h : wfSchema doc = true) (s : String) (m : Int) (hm : m ≤ 0) :
    get_sensitive_fields doc s m = .ok ((fieldsOf doc s).map Prod.fst) := by
  rw [get_sensitive_fields_wf doc h s m]
  have hfull : (fieldsOf doc s).filter (fun kv => decide (m ≤ piiLevelOf kv.2)) =
      fieldsOf doc s := by
    apply List.filter_eq_self.mpr
    intro kv hkv
    have hnn := piiLevelOf_nonneg kv.2 (fieldsOf_all_wf doc h s kv hkv)
    simp only [decide_eq_true_eq]
    omega
  rw [hfull]

/-- Witness for C10 at threshold 0 on the concrete scenario. -/
theorem C10_witness :
    wfSchema demoDoc = true ∧ (0 : Int) ≤ 0 ∧
    get_sensitive_fields demoDoc "userinfo" 0 =
      .ok ((fieldsOf demoDoc "userinfo").map Prod.fst) :=
  ⟨rfl, by decide, C10_nonpositive_threshold_selects_all demoDoc rfl "userinfo" 0 (by decide)⟩
